import Mathlib

/-!
Shallow embedding of the NoxKit UI toolkit core (src/view.rs, src/render.rs,
src/state.rs, src/widgets.rs, src/app.rs) and proofs about the spec's claims.

Machine `f32` scalars are modelled as rationals `ℚ`: every operation the
claims exercise (comparison, addition of coordinates) is exact at the
concrete inputs involved, so no rounding behaviour is lost.  The `u16`
index cast in `RenderQueue::push_raw` (`vertices.len() as u16`) is modelled
as `% 65536`, the wrapping semantics of an `as` cast.
-/

namespace NoxKit

/-! ### view.rs : Geometry and events -/

/-- Model of `Geometry` from src/view.rs: rectangle `{x, y, width, height}`. -/
structure Geometry where
  x : ℚ
  y : ℚ
  width : ℚ
  height : ℚ
deriving DecidableEq

/-- Model of `Geometry::contains` from src/view.rs:
`px >= self.x && px <= self.x + self.width && py >= self.y && py <= self.y + self.height`. -/
def Geometry.contains (g : Geometry) (px py : ℚ) : Bool :=
  decide (g.x ≤ px) && decide (px ≤ g.x + g.width) &&
  decide (g.y ≤ py) && decide (py ≤ g.y + g.height)

/-- Model of `Event` from src/view.rs: tagged variant carrying absolute coordinates. -/
inductive Event where
  | mouseClick (x y : ℚ)
  | mouseMove (x y : ℚ)
  | mouseDown (x y : ℚ)
  | mouseUp (x y : ℚ)
deriving DecidableEq

/-! ### render.rs : Vertex and RenderQueue -/

/-- An RGBA color, `[f32; 4]`. -/
abbrev Color := ℚ × ℚ × ℚ × ℚ

/-- Model of `Vertex` from src/render.rs. -/
structure Vertex where
  position : ℚ × ℚ
  color : Color
  rect_pos : ℚ × ℚ
  rect_size : ℚ × ℚ
  corner_radius : ℚ
  shape_type : ℚ
deriving DecidableEq

/-- Model of `RenderQueue` from src/render.rs: flat vertex list plus `u16` index list.
Indices are kept as `Nat` values below `65536` (produced via `% 65536`,
the semantics of the `as u16` cast in the source). -/
structure RenderQueue where
  vertices : List Vertex
  indices : List Nat
deriving DecidableEq

/-- Model of `RenderQueue::new`.  `Vec::with_capacity(1024)` / `with_capacity(1536)`
only pre-allocate; both lists start empty and are unbounded. -/
def RenderQueue.new : RenderQueue := ⟨[], []⟩

/-- The initial `Vec` allocation hint for vertices (src/render.rs line 66). -/
def vertexCapacityHint : Nat := 1024

/-- The initial `Vec` allocation hint for indices (src/render.rs line 67). -/
def indexCapacityHint : Nat := 1536

/-- Size of the GPU vertex buffer in vertices (src/render.rs line 173). -/
def vertexBufferCapacity : Nat := 16384

/-- Size of the GPU index buffer in indices (src/render.rs line 180). -/
def indexBufferCapacity : Nat := 24576

/-- Model of `RenderQueue::push_raw` from src/render.rs: appends a quad of 4 vertices
and 6 indices.  `start_index` is `self.vertices.len() as u16`, i.e. the
length reduced modulo `2 ^ 16`; the subsequent `+ 1 … + 3` additions are
`u16` additions, also reduced modulo `2 ^ 16`. -/
def RenderQueue.push_raw (q : RenderQueue) (g : Geometry) (c : Color)
    (radius shape : ℚ) : RenderQueue :=
  let x := g.x
  let y := g.y
  let w := g.width
  let h := g.height
  let start_index := q.vertices.length % 65536
  let rect_pos : ℚ × ℚ := (x, y)
  let rect_size : ℚ × ℚ := (w, h)
  { vertices := q.vertices ++
      [⟨(x, y), c, rect_pos, rect_size, radius, shape⟩,
       ⟨(x + w, y), c, rect_pos, rect_size, radius, shape⟩,
       ⟨(x, y + h), c, rect_pos, rect_size, radius, shape⟩,
       ⟨(x + w, y + h), c, rect_pos, rect_size, radius, shape⟩],
    indices := q.indices ++
      [start_index, (start_index + 1) % 65536, (start_index + 2) % 65536,
       (start_index + 2) % 65536, (start_index + 1) % 65536,
       (start_index + 3) % 65536] }

/-- Model of `RenderQueue::push_rect`. -/
def RenderQueue.push_rect (q : RenderQueue) (g : Geometry) (c : Color) : RenderQueue :=
  q.push_raw g c 0 0

/-- Model of `RenderQueue::push_rounded_rect`. -/
def RenderQueue.push_rounded_rect (q : RenderQueue) (g : Geometry) (c : Color)
    (radius : ℚ) : RenderQueue :=
  q.push_raw g c radius 1

/-- Model of `RenderQueue::push_circle`. -/
def RenderQueue.push_circle (q : RenderQueue) (g : Geometry) (c : Color) : RenderQueue :=
  q.push_raw g c 0 2

/-- Model of `RenderQueue::clear`. -/
def RenderQueue.clear (_ : RenderQueue) : RenderQueue := ⟨[], []⟩

/-- One public push operation on the Render Queue. -/
inductive PushOp where
  | rect (g : Geometry) (c : Color)
  | rrect (g : Geometry) (c : Color) (radius : ℚ)
  | circle (g : Geometry) (c : Color)

/-- Apply a single push operation. -/
def applyPush (q : RenderQueue) : PushOp → RenderQueue
  | .rect g c => q.push_rect g c
  | .rrect g c r => q.push_rounded_rect g c r
  | .circle g c => q.push_circle g c

/-- Apply a sequence of push operations, left to right. -/
def applyPushes (ops : List PushOp) (q : RenderQueue) : RenderQueue :=
  ops.foldl applyPush q

/-- The vertex slice uploaded at frame submission (src/app.rs line 278):
`&vertices[..v_len.min(16384)]`. -/
def submittedVertices (q : RenderQueue) : List Vertex :=
  q.vertices.take vertexBufferCapacity

/-- The index slice uploaded at frame submission (src/app.rs line 279):
`&indices[..i_len.min(24576)]`. -/
def submittedIndices (q : RenderQueue) : List Nat :=
  q.indices.take indexBufferCapacity

/-! ### state.rs : Signal

`Signal<T>` owns a value and an ordered `Vec` of listener closures.
`update` commits the mutation (the `RefCell` borrow is dropped) and only
then runs `notify`, which invokes every listener in insertion order.
Listeners are modelled by opaque identifiers; an invocation is recorded as
the pair (listener id, value the listener observes through `get()` at that
moment), which by the source's ordering is the freshly committed value. -/

/-- Model of `Signal<T>`: current value plus listener ids in subscription
order (src/state.rs lines 4-44). -/
structure SignalModel (α : Type) where
  value : α
  listeners : List Nat

/-- Model of `Signal::new`: no listeners. -/
def SignalModel.new (v : α) : SignalModel α := ⟨v, []⟩

/-- Model of `Signal::get`: returns (a clone of) the current value. -/
def SignalModel.get (s : SignalModel α) : α := s.value

/-- Model of `Signal::subscribe`: appends a listener. -/
def SignalModel.subscribe (s : SignalModel α) (l : Nat) : SignalModel α :=
  { s with listeners := s.listeners ++ [l] }

/-- Model of `Signal::update`: applies the mutator in place, drops the exclusive
borrow (commit), then `notify` runs each listener in order.  Returns the
updated signal and the invocation log of this update: each listener paired
with the value it observes, i.e. the committed value. -/
def SignalModel.update (s : SignalModel α) (f : α → α) :
    SignalModel α × List (Nat × α) :=
  let s' : SignalModel α := { s with value := f s.value }
  (s', s'.listeners.map fun l => (l, s'.value))

/-- Run a sequence of `update` calls, collecting one invocation log per
update. -/
def runUpdates (s : SignalModel α) : List (α → α) → SignalModel α × List (List (Nat × α))
  | [] => (s, [])
  | f :: fs =>
    let r := runUpdates (s.update f).1 fs
    (r.1, (s.update f).2 :: r.2)

/-! ### state.rs : Computed and Memo

`Computed::new(f)` evaluates `f()` once at construction and stores the
result; it installs no subscription, so the stored value is never touched
again.  `create_memo(dependency, f)` computes `f(dependency.get())`
eagerly, then subscribes a listener on the dependency that overwrites the
stored value with `f(dep.get())` on every notification — since `notify`
runs after commit, the listener always reads the freshly committed
dependency value.

Both are modelled together with their single dependency signal's value, so
that a dependency `update` step can be expressed: it commits the new
dependency value and then runs the subscribed listeners.  A `Computed`
subscribed nothing, so a dependency update leaves its cell untouched; a
`Memo`'s subscribed listener overwrites the cell with `derive` of the
committed dependency value. -/

/-- Model of `create_memo(dependency, f)` (src/state.rs lines 93-112)
paired with its dependency signal's current value. -/
structure MemoModel (σ τ : Type) where
  dep : σ
  derive : σ → τ
  memoValue : τ

/-- Model of `create_memo`: eagerly computes the initial value from the dependency's
current value and subscribes the recomputation listener. -/
def createMemo (dep0 : σ) (f : σ → τ) : MemoModel σ τ :=
  ⟨dep0, f, f dep0⟩

/-- Model of `Computed::get` on the memo's cell. -/
def MemoModel.get (m : MemoModel σ τ) : τ := m.memoValue

/-- A `dependency.update(g)` step as seen by the memo: the dependency value
is committed first, then the subscribed listener recomputes the cell from
`dep.get()`, the committed value. -/
def MemoModel.depUpdate (m : MemoModel σ τ) (g : σ → σ) : MemoModel σ τ :=
  let newDep := g m.dep
  { m with dep := newDep, memoValue := m.derive newDep }

/-- A sequence of dependency updates. -/
def runMemoUpdates (m : MemoModel σ τ) (gs : List (σ → σ)) : MemoModel σ τ :=
  gs.foldl MemoModel.depUpdate m

/-- Model of `Computed::new` / `create_computed` (src/state.rs lines 59-87)
paired with the value of the signal its closure read at construction time.
No subscription exists, so a dependency update only moves the dependency. -/
structure ComputedModel (σ τ : Type) where
  dep : σ
  value : τ

/-- Model of `create_computed` over a closure reading the dependency: evaluates the
closure exactly once, eagerly, and stores the result. -/
def createComputed (dep0 : σ) (f : σ → τ) : ComputedModel σ τ :=
  ⟨dep0, f dep0⟩

/-- Model of `Computed::get`: returns the stored value. -/
def ComputedModel.get (c : ComputedModel σ τ) : τ := c.value

/-- A `dependency.update(g)` step as seen by a `Computed`: the dependency
commits and notifies its listeners, none of which reference this cell
(`Computed::new` never calls `subscribe`), so the stored value is
untouched. -/
def ComputedModel.depUpdate (c : ComputedModel σ τ) (g : σ → σ) : ComputedModel σ τ :=
  { c with dep := g c.dep }

/-- A sequence of dependency updates as seen by a `Computed`. -/
def runComputedUpdates (c : ComputedModel σ τ) (gs : List (σ → σ)) : ComputedModel σ τ :=
  gs.foldl ComputedModel.depUpdate c

/-! ### widgets.rs : Button interaction state -/

/-- The `Button` interaction state (src/widgets.rs lines 230-237):
`hovered`, `pressed`, and the number of times `on_click` has been
invoked (the callback is modelled by this counter). -/
structure ButtonState where
  hovered : Bool
  pressed : Bool
  clicks : Nat
deriving DecidableEq

/-- Model of `Button::handle_event` (src/widgets.rs lines 316-343), acting on the
resolved absolute geometry `geo` of the button.  `MouseClick` runs the
callback iff the point is contained; `MouseMove` recomputes `hovered`;
`MouseDown` sets `pressed` only when contained; `MouseUp` clears
`pressed` unconditionally. -/
def buttonHandleEvent (b : ButtonState) (geo : Geometry) : Event → ButtonState
  | .mouseClick x y => if geo.contains x y then { b with clicks := b.clicks + 1 } else b
  | .mouseMove x y => { b with hovered := geo.contains x y }
  | .mouseDown x y => if geo.contains x y then { b with pressed := true } else b
  | .mouseUp _ _ => { b with pressed := false }

/-! ### widgets.rs : Text shape cache -/

/-- The `Text` widget's shaping state (src/widgets.rs lines 141-159):
its current string, whether the glyphon buffer has been created, and the
content used for the last shape (`last_text`). -/
structure TextModel where
  text : String
  buffer : Bool
  last_text : Option String
deriving DecidableEq

/-- Model of `Text::new`: no buffer, no previously shaped content. -/
def TextModel.new (t : String) : TextModel := ⟨t, false, none⟩

/-- Model of `Text::prepare` (src/widgets.rs lines 168-194) restricted to its
shaping behaviour: create the buffer if absent, then re-shape (set_text +
shape_until_scroll + record `last_text`) only when
`last_text != Some(text)`.  Returns the new state and the number of shape
operations performed by this call (0 or 1). -/
def TextModel.prepare (t : TextModel) : TextModel × Nat :=
  let t1 := if t.buffer then t else { t with buffer := true }
  if t1.last_text ≠ some t1.text then
    ({ t1 with last_text := some t1.text }, 1)
  else
    (t1, 0)

/-- Assigning a new string to the widget's `text` field between frames. -/
def TextModel.setText (t : TextModel) (s : String) : TextModel :=
  { t with text := s }

/-! ### app.rs : platform input dispatch -/

/-- The platform events relevant to pointer input
(src/app.rs lines 127-170): cursor movement and left-button state
changes. -/
inductive PlatformEvent where
  | cursorMoved (x y : ℚ)
  | mouseInput (pressed : Bool)

/-- Model of `App::window_event` input handling: `CursorMoved` records the cursor
position and delivers `MouseMove`; a left-button press delivers
`MouseDown` and then, within the same dispatch, a synthesized `MouseClick`
at the same cursor position; a release delivers `MouseUp`.  Returns the
new cursor position and the events delivered to the view, in order. -/
def dispatchEvents (cursor : ℚ × ℚ) : PlatformEvent → (ℚ × ℚ) × List Event
  | .cursorMoved x y => ((x, y), [.mouseMove x y])
  | .mouseInput true =>
    (cursor, [.mouseDown cursor.1 cursor.2, .mouseClick cursor.1 cursor.2])
  | .mouseInput false => (cursor, [.mouseUp cursor.1 cursor.2])

/-- One platform event applied to an app whose view is a single button with
resolved geometry `geo`. -/
def appStep (geo : Geometry) (st : (ℚ × ℚ) × ButtonState) (pe : PlatformEvent) :
    (ℚ × ℚ) × ButtonState :=
  let r := dispatchEvents st.1 pe
  (r.1, r.2.foldl (fun b e => buttonHandleEvent b geo e) st.2)

/-- A sequence of platform events. -/
def appRun (geo : Geometry) (st : (ℚ × ℚ) × ButtonState)
    (pes : List PlatformEvent) : (ℚ × ℚ) × ButtonState :=
  pes.foldl (appStep geo) st

/-! ### widgets.rs : the layout-handle contract

Every widget stores `node_id : Option<NodeId>`, set by `layout` and read
through `self.node_id.unwrap()` wherever absolute geometry is resolved.
The model keeps, per widget, exactly the control flow that touches the
handle: an operation returns `none` when it reaches an `unwrap` on an
unset handle (the panic) and `some ()` when it completes.  The layout
engine lookup `taffy.layout(id)` is modelled as a total function from
node ids to relative boxes (a successfully registered handle always
resolves). -/

/-- The relative box the layout engine reports for a handle:
`location` plus `size`, as a `Geometry`. -/
def LayoutCtx : Type := Nat → Geometry

/-- Geometry resolution as written at every call site:
`layout_ctx.taffy.layout(self.node_id.unwrap())`, then
`parent origin + location`, `size`.  `none` is the `unwrap` panic on an
unset handle. -/
def resolveGeo (ctx : LayoutCtx) (nodeId : Option Nat) (parent : Geometry) :
    Option Geometry :=
  match nodeId with
  | none => none
  | some id =>
    let l := ctx id
    some ⟨parent.x + l.x, parent.y + l.y, l.width, l.height⟩

mutual
/-- A widget tree: each constructor carries its `node_id` field
(src/widgets.rs).  `button` carries its own handle and its internal
`Text` label's handle. -/
inductive Widget where
  | column (nodeId : Option Nat) (children : WidgetList)
  | text (nodeId : Option Nat)
  | button (nodeId : Option Nat) (textNodeId : Option Nat)
  | rect (nodeId : Option Nat)
  | circle (nodeId : Option Nat)
  | rrect (nodeId : Option Nat)
/-- A list of widgets (the `Vec<Box<dyn View>>` children of a `Column`). -/
inductive WidgetList where
  | nil
  | cons (w : Widget) (ws : WidgetList)
end

mutual
/-- Model of `prepare` control flow with respect to the layout handle: every widget
resolves its geometry first (`node_id.unwrap()`); `Column` then recurses
into its children with the resolved geometry, `Button` then prepares its
internal `Text` label. -/
def Widget.prepare (ctx : LayoutCtx) (parent : Geometry) : Widget → Option Unit
  | .column n cs =>
    match resolveGeo ctx n parent with
    | none => none
    | some g => WidgetList.prepareAll ctx g cs
  | .text n =>
    match resolveGeo ctx n parent with
    | none => none
    | some _ => some ()
  | .button n tn =>
    match resolveGeo ctx n parent with
    | none => none
    | some g =>
      match resolveGeo ctx tn g with
      | none => none
      | some _ => some ()
  | .rect n =>
    match resolveGeo ctx n parent with
    | none => none
    | some _ => some ()
  | .circle n =>
    match resolveGeo ctx n parent with
    | none => none
    | some _ => some ()
  | .rrect n =>
    match resolveGeo ctx n parent with
    | none => none
    | some _ => some ()
/-- Sequential `prepare` over children. -/
def WidgetList.prepareAll (ctx : LayoutCtx) (parent : Geometry) : WidgetList → Option Unit
  | .nil => some ()
  | .cons w ws =>
    match Widget.prepare ctx parent w with
    | none => none
    | some _ => WidgetList.prepareAll ctx parent ws
end

mutual
/-- Model of `collect_text_areas` control flow: `Column`, `Text` and `Button`
resolve their handle; `Rect`, `Circle` and `RoundedRect` inherit the
trait's default no-op body, which never reads the handle. -/
def Widget.collectText (ctx : LayoutCtx) (parent : Geometry) : Widget → Option Unit
  | .column n cs =>
    match resolveGeo ctx n parent with
    | none => none
    | some g => WidgetList.collectTextAll ctx g cs
  | .text n =>
    match resolveGeo ctx n parent with
    | none => none
    | some _ => some ()
  | .button n tn =>
    match resolveGeo ctx n parent with
    | none => none
    | some g =>
      match resolveGeo ctx tn g with
      | none => none
      | some _ => some ()
  | .rect _ => some ()
  | .circle _ => some ()
  | .rrect _ => some ()
/-- Sequential `collect_text_areas` over children. -/
def WidgetList.collectTextAll (ctx : LayoutCtx) (parent : Geometry) : WidgetList → Option Unit
  | .nil => some ()
  | .cons w ws =>
    match Widget.collectText ctx parent w with
    | none => none
    | some _ => WidgetList.collectTextAll ctx parent ws
end

mutual
/-- Model of `handle_event` control flow: `Column` and `Button` resolve their
handle (`Button` does not forward events to its label); `Text`, `Rect`,
`Circle` and `RoundedRect` have empty bodies. -/
def Widget.handleEvent (ctx : LayoutCtx) (parent : Geometry) : Widget → Option Unit
  | .column n cs =>
    match resolveGeo ctx n parent with
    | none => none
    | some g => WidgetList.handleEventAll ctx g cs
  | .text _ => some ()
  | .button n _ =>
    match resolveGeo ctx n parent with
    | none => none
    | some _ => some ()
  | .rect _ => some ()
  | .circle _ => some ()
  | .rrect _ => some ()
/-- Sequential `handle_event` over children. -/
def WidgetList.handleEventAll (ctx : LayoutCtx) (parent : Geometry) : WidgetList → Option Unit
  | .nil => some ()
  | .cons w ws =>
    match Widget.handleEvent ctx parent w with
    | none => none
    | some _ => WidgetList.handleEventAll ctx parent ws
end

mutual
/-- Model of `render` control flow: `Column` recurses into children passing the
parent geometry through unchanged and never reads its handle; every other
widget's `render` body is empty (Button delegates to its label's empty
`render`).  No implementation reads `node_id`. -/
def Widget.render : Widget → Option Unit
  | .column _ cs => WidgetList.renderAll cs
  | .text _ => some ()
  | .button _ _ => some ()
  | .rect _ => some ()
  | .circle _ => some ()
  | .rrect _ => some ()
/-- Sequential `render` over children. -/
def WidgetList.renderAll : WidgetList → Option Unit
  | .nil => some ()
  | .cons w ws =>
    match Widget.render w with
    | none => none
    | some _ => WidgetList.renderAll ws
end

mutual
/-- The postcondition of a completed layout pass: every handle in the
tree is set. -/
def Widget.allSet : Widget → Bool
  | .column n cs => n.isSome && cs.allSet
  | .text n => n.isSome
  | .button n tn => n.isSome && tn.isSome
  | .rect n => n.isSome
  | .circle n => n.isSome
  | .rrect n => n.isSome
/-- Model of `allSet` over a widget list. -/
def WidgetList.allSet : WidgetList → Bool
  | .nil => true
  | .cons w ws => w.allSet && ws.allSet
end

/-! ### Concrete fixtures used by witnesses and counterexamples -/

/-- A 10×10 rectangle at the origin. -/
def gA : Geometry := ⟨0, 0, 10, 10⟩

/-- A second, distinct geometry. -/
def gB : Geometry := ⟨20, 0, 5, 8⟩

/-- A third, distinct geometry. -/
def gC : Geometry := ⟨0, 30, 7, 7⟩

/-- An opaque white color. -/
def cW : Color := (1, 1, 1, 1)

/-- A trivial layout context: every handle resolves to the zero box. -/
def ctx0 : LayoutCtx := fun _ => ⟨0, 0, 0, 0⟩

/-- Three rectangles at distinct geometries pushed into a fresh queue. -/
def threeRects : RenderQueue :=
  applyPushes [PushOp.rect gA cW, PushOp.rect gB cW, PushOp.rect gC cW] RenderQueue.new

/-! ## Helper lemmas -/

theorem push_rect_eq (q : RenderQueue) (g : Geometry) (c : Color) :
    q.push_rect g c = q.push_raw g c 0 0 := rfl

theorem push_rounded_rect_eq (q : RenderQueue) (g : Geometry) (c : Color) (r : ℚ) :
    q.push_rounded_rect g c r = q.push_raw g c r 1 := rfl

theorem push_circle_eq (q : RenderQueue) (g : Geometry) (c : Color) :
    q.push_circle g c = q.push_raw g c 0 2 := rfl

theorem push_raw_vertices (q : RenderQueue) (g : Geometry) (c : Color)
    (radius shape : ℚ) :
    (q.push_raw g c radius shape).vertices = q.vertices ++
      [⟨(g.x, g.y), c, (g.x, g.y), (g.width, g.height), radius, shape⟩,
       ⟨(g.x + g.width, g.y), c, (g.x, g.y), (g.width, g.height), radius, shape⟩,
       ⟨(g.x, g.y + g.height), c, (g.x, g.y), (g.width, g.height), radius, shape⟩,
       ⟨(g.x + g.width, g.y + g.height), c, (g.x, g.y), (g.width, g.height), radius, shape⟩] := rfl

theorem push_raw_indices (q : RenderQueue) (g : Geometry) (c : Color)
    (radius shape : ℚ) :
    (q.push_raw g c radius shape).indices = q.indices ++
      [q.vertices.length % 65536, (q.vertices.length % 65536 + 1) % 65536,
       (q.vertices.length % 65536 + 2) % 65536, (q.vertices.length % 65536 + 2) % 65536,
       (q.vertices.length % 65536 + 1) % 65536, (q.vertices.length % 65536 + 3) % 65536] := rfl

theorem push_raw_vertices_length (q : RenderQueue) (g : Geometry) (c : Color)
    (radius shape : ℚ) :
    (q.push_raw g c radius shape).vertices.length = q.vertices.length + 4 := by
  simp [RenderQueue.push_raw]

theorem push_raw_indices_length (q : RenderQueue) (g : Geometry) (c : Color)
    (radius shape : ℚ) :
    (q.push_raw g c radius shape).indices.length = q.indices.length + 6 := by
  simp [RenderQueue.push_raw]

theorem applyPush_vertices_length (q : RenderQueue) (op : PushOp) :
    (applyPush q op).vertices.length = q.vertices.length + 4 := by
  cases op <;>
    simp [applyPush, RenderQueue.push_rect, RenderQueue.push_rounded_rect,
      RenderQueue.push_circle, push_raw_vertices_length]

theorem applyPush_indices_length (q : RenderQueue) (op : PushOp) :
    (applyPush q op).indices.length = q.indices.length + 6 := by
  cases op <;>
    simp [applyPush, RenderQueue.push_rect, RenderQueue.push_rounded_rect,
      RenderQueue.push_circle, push_raw_indices_length]

theorem applyPushes_vertices_length (ops : List PushOp) (q : RenderQueue) :
    (applyPushes ops q).vertices.length = q.vertices.length + 4 * ops.length := by
  induction ops generalizing q with
  | nil => simp [applyPushes]
  | cons op ops ih =>
    have h := ih (applyPush q op)
    simp only [applyPushes, List.foldl_cons] at h ⊢
    rw [h, applyPush_vertices_length]
    simp only [List.length_cons]
    ring

theorem applyPushes_indices_length (ops : List PushOp) (q : RenderQueue) :
    (applyPushes ops q).indices.length = q.indices.length + 6 * ops.length := by
  induction ops generalizing q with
  | nil => simp [applyPushes]
  | cons op ops ih =>
    have h := ih (applyPush q op)
    simp only [applyPushes, List.foldl_cons] at h ⊢
    rw [h, applyPush_indices_length]
    simp only [List.length_cons]
    ring

theorem runUpdates_value (fs : List (α → α)) (s : SignalModel α) :
    (runUpdates s fs).1.value = fs.foldl (fun v f => f v) s.value := by
  induction fs generalizing s with
  | nil => rfl
  | cons f fs ih => simpa [runUpdates, SignalModel.update] using ih _

theorem runUpdates_listeners (fs : List (α → α)) (s : SignalModel α) :
    (runUpdates s fs).1.listeners = s.listeners := by
  induction fs generalizing s with
  | nil => rfl
  | cons f fs ih => simpa [runUpdates, SignalModel.update] using ih _

theorem runUpdates_logs_length (fs : List (α → α)) (s : SignalModel α) :
    (runUpdates s fs).2.length = fs.length := by
  induction fs generalizing s with
  | nil => rfl
  | cons f fs ih => simpa [runUpdates] using ih _

theorem runUpdates_logs_getD (fs : List (α → α)) (s : SignalModel α)
    (i : Nat) (hi : i < fs.length) :
    (runUpdates s fs).2.getD i [] =
      s.listeners.map fun l => (l, (fs.take (i + 1)).foldl (fun v f => f v) s.value) := by
  induction fs generalizing s i with
  | nil => exact absurd hi (by simp)
  | cons f fs ih =>
    cases i with
    | zero => simp [runUpdates, SignalModel.update]
    | succ i =>
      have h := ih (s.update f).1 i (by simpa using Nat.lt_of_succ_lt_succ hi)
      simpa [runUpdates, SignalModel.update] using h

theorem runMemoUpdates_dep (gs : List (σ → σ)) (m : MemoModel σ τ) :
    (runMemoUpdates m gs).dep = gs.foldl (fun v g => g v) m.dep := by
  induction gs generalizing m with
  | nil => rfl
  | cons g gs ih => simpa [runMemoUpdates, MemoModel.depUpdate] using ih _

theorem runMemoUpdates_derive (gs : List (σ → σ)) (m : MemoModel σ τ) :
    (runMemoUpdates m gs).derive = m.derive := by
  induction gs generalizing m with
  | nil => rfl
  | cons g gs ih => simpa [runMemoUpdates, MemoModel.depUpdate] using ih _

theorem runMemoUpdates_invariant (gs : List (σ → σ)) (m : MemoModel σ τ)
    (h : m.memoValue = m.derive m.dep) :
    (runMemoUpdates m gs).memoValue =
      (runMemoUpdates m gs).derive (runMemoUpdates m gs).dep := by
  induction gs generalizing m with
  | nil => exact h
  | cons g gs ih =>
    simpa [runMemoUpdates, MemoModel.depUpdate] using
      ih (m.depUpdate g) (by simp [MemoModel.depUpdate])

theorem runComputedUpdates_value (gs : List (σ → σ)) (c : ComputedModel σ τ) :
    (runComputedUpdates c gs).value = c.value := by
  induction gs generalizing c with
  | nil => rfl
  | cons g gs ih => simpa [runComputedUpdates, ComputedModel.depUpdate] using ih _

theorem TextModel.prepare_fst (t : TextModel) :
    t.prepare.1 = ⟨t.text, true, some t.text⟩ := by
  obtain ⟨tx, bf, lt⟩ := t
  unfold TextModel.prepare
  by_cases hb : bf <;> by_cases hl : lt = some tx <;> simp [hb, hl]

theorem TextModel.prepare_snd (t : TextModel) :
    t.prepare.2 = if t.last_text = some t.text then 0 else 1 := by
  obtain ⟨tx, bf, lt⟩ := t
  unfold TextModel.prepare
  by_cases hb : bf <;> by_cases hl : lt = some tx <;> simp [hb, hl]

mutual
theorem Widget.prepare_some (ctx : LayoutCtx) :
    ∀ (w : Widget) (parent : Geometry), w.allSet = true →
      Widget.prepare ctx parent w = some ()
  | .column n cs, parent, h => by
    rw [Widget.allSet, Bool.and_eq_true, Option.isSome_iff_exists] at h
    obtain ⟨⟨id, rfl⟩, h2⟩ := h
    rw [Widget.prepare, resolveGeo]
    exact WidgetList.prepareAll_some ctx cs _ h2
  | .text n, parent, h => by
    rw [Widget.allSet, Option.isSome_iff_exists] at h
    obtain ⟨id, rfl⟩ := h
    rw [Widget.prepare, resolveGeo]
  | .button n tn, parent, h => by
    rw [Widget.allSet, Bool.and_eq_true, Option.isSome_iff_exists,
      Option.isSome_iff_exists] at h
    obtain ⟨⟨id, rfl⟩, ⟨tid, rfl⟩⟩ := h
    rw [Widget.prepare, resolveGeo]
    rfl
  | .rect n, parent, h => by
    rw [Widget.allSet, Option.isSome_iff_exists] at h
    obtain ⟨id, rfl⟩ := h
    rw [Widget.prepare, resolveGeo]
  | .circle n, parent, h => by
    rw [Widget.allSet, Option.isSome_iff_exists] at h
    obtain ⟨id, rfl⟩ := h
    rw [Widget.prepare, resolveGeo]
  | .rrect n, parent, h => by
    rw [Widget.allSet, Option.isSome_iff_exists] at h
    obtain ⟨id, rfl⟩ := h
    rw [Widget.prepare, resolveGeo]
theorem WidgetList.prepareAll_some (ctx : LayoutCtx) :
    ∀ (ws : WidgetList) (parent : Geometry), ws.allSet = true →
      WidgetList.prepareAll ctx parent ws = some ()
  | .nil, _, _ => rfl
  | .cons w ws, parent, h => by
    rw [WidgetList.allSet, Bool.and_eq_true] at h
    rw [WidgetList.prepareAll, Widget.prepare_some ctx w parent h.1]
    exact WidgetList.prepareAll_some ctx ws parent h.2
end

mutual
theorem Widget.collectText_some (ctx : LayoutCtx) :
    ∀ (w : Widget) (parent : Geometry), w.allSet = true →
      Widget.collectText ctx parent w = some ()
  | .column n cs, parent, h => by
    rw [Widget.allSet, Bool.and_eq_true, Option.isSome_iff_exists] at h
    obtain ⟨⟨id, rfl⟩, h2⟩ := h
    rw [Widget.collectText, resolveGeo]
    exact WidgetList.collectTextAll_some ctx cs _ h2
  | .text n, parent, h => by
    rw [Widget.allSet, Option.isSome_iff_exists] at h
    obtain ⟨id, rfl⟩ := h
    rw [Widget.collectText, resolveGeo]
  | .button n tn, parent, h => by
    rw [Widget.allSet, Bool.and_eq_true, Option.isSome_iff_exists,
      Option.isSome_iff_exists] at h
    obtain ⟨⟨id, rfl⟩, ⟨tid, rfl⟩⟩ := h
    rw [Widget.collectText, resolveGeo]
    rfl
  | .rect _, _, _ => rfl
  | .circle _, _, _ => rfl
  | .rrect _, _, _ => rfl
theorem WidgetList.collectTextAll_some (ctx : LayoutCtx) :
    ∀ (ws : WidgetList) (parent : Geometry), ws.allSet = true →
      WidgetList.collectTextAll ctx parent ws = some ()
  | .nil, _, _ => rfl
  | .cons w ws, parent, h => by
    rw [WidgetList.allSet, Bool.and_eq_true] at h
    rw [WidgetList.collectTextAll, Widget.collectText_some ctx w parent h.1]
    exact WidgetList.collectTextAll_some ctx ws parent h.2
end

mutual
theorem Widget.handleEvent_some (ctx : LayoutCtx) :
    ∀ (w : Widget) (parent : Geometry), w.allSet = true →
      Widget.handleEvent ctx parent w = some ()
  | .column n cs, parent, h => by
    rw [Widget.allSet, Bool.and_eq_true, Option.isSome_iff_exists] at h
    obtain ⟨⟨id, rfl⟩, h2⟩ := h
    rw [Widget.handleEvent, resolveGeo]
    exact WidgetList.handleEventAll_some ctx cs _ h2
  | .text _, _, _ => rfl
  | .button n tn, parent, h => by
    rw [Widget.allSet, Bool.and_eq_true, Option.isSome_iff_exists] at h
    obtain ⟨⟨id, rfl⟩, _⟩ := h
    rw [Widget.handleEvent, resolveGeo]
  | .rect _, _, _ => rfl
  | .circle _, _, _ => rfl
  | .rrect _, _, _ => rfl
theorem WidgetList.handleEventAll_some (ctx : LayoutCtx) :
    ∀ (ws : WidgetList) (parent : Geometry), ws.allSet = true →
      WidgetList.handleEventAll ctx parent ws = some ()
  | .nil, _, _ => rfl
  | .cons w ws, parent, h => by
    rw [WidgetList.allSet, Bool.and_eq_true] at h
    rw [WidgetList.handleEventAll, Widget.handleEvent_some ctx w parent h.1]
    exact WidgetList.handleEventAll_some ctx ws parent h.2
end

mutual
theorem Widget.render_some : ∀ w : Widget, Widget.render w = some ()
  | .column _ cs => by
    rw [Widget.render]
    exact WidgetList.renderAll_some cs
  | .text _ => rfl
  | .button _ _ => rfl
  | .rect _ => rfl
  | .circle _ => rfl
  | .rrect _ => rfl
theorem WidgetList.renderAll_some : ∀ ws : WidgetList, WidgetList.renderAll ws = some ()
  | .nil => rfl
  | .cons w ws => by
    rw [WidgetList.renderAll, Widget.render_some w]
    exact WidgetList.renderAll_some ws
end

theorem gA_contains_5_5 : gA.contains 5 5 = true := by
  norm_num [gA, Geometry.contains]

theorem gA_not_contains_20_5 : gA.contains 20 5 = false := by
  norm_num [gA, Geometry.contains]

/-! ## Claim theorems -/

/-- C2: for any finite sequence of `update` calls on a Signal, `get()` after
the Nth update equals the left fold of the N mutators over the initial
value; each update produces exactly one invocation log, and the log of the
i-th update invokes every subscribed listener exactly once, in subscription
order, each observing the value already committed by that update. -/
theorem C2_signal_update_fold_and_notify (α : Type) (v0 : α) (ls : List Nat)
    (fs : List (α → α)) :
    (runUpdates ⟨v0, ls⟩ fs).1.get = fs.foldl (fun v f => f v) v0 ∧
    (runUpdates ⟨v0, ls⟩ fs).2.length = fs.length ∧
    ∀ i, i < fs.length →
      (runUpdates ⟨v0, ls⟩ fs).2.getD i [] =
        ls.map fun l => (l, (fs.take (i + 1)).foldl (fun v f => f v) v0) :=
  ⟨runUpdates_value fs _, runUpdates_logs_length fs _,
    fun i hi => runUpdates_logs_getD fs _ i hi⟩

/-- Witness for C2 at a concrete run: initial value 1, listeners 0 and 1,
updates (+2) then (*3); the second update's log shows both listeners, in
order, observing the committed value 9. -/
theorem C2_signal_update_fold_and_notify_witness :
    (runUpdates ⟨1, [0, 1]⟩ [fun v => v + 2, fun v => v * 3]).2.getD 1 [] =
      [(0, 9), (1, 9)] := by
  have h := (C2_signal_update_fold_and_notify Nat 1 [0, 1]
    [fun v => v + 2, fun v => v * 3]).2.2 1 (by decide)
  exact h.trans (by decide)

/-- C3: a memo's initial value is `derive` applied eagerly to the
dependency's current value, and after any sequence of dependency updates
its `get()` equals `derive` of the dependency value as committed at the
most recent notification — the latest dependency value. -/
theorem C3_memo_tracks_latest_dependency (σ τ : Type) (d0 : σ) (f : σ → τ)
    (gs : List (σ → σ)) :
    (createMemo d0 f).get = f d0 ∧
    (runMemoUpdates (createMemo d0 f) gs).get =
      f ((runMemoUpdates (createMemo d0 f) gs).dep) ∧
    (runMemoUpdates (createMemo d0 f) gs).dep = gs.foldl (fun v g => g v) d0 := by
  have h := runMemoUpdates_invariant gs (createMemo d0 f) rfl
  rw [runMemoUpdates_derive gs] at h
  exact ⟨rfl, h, runMemoUpdates_dep gs _⟩

/-- C10: a `Computed` evaluates its closure once, eagerly, at construction;
its `get()` is unchanged by any later sequence of dependency-signal
updates (no subscription was installed), whereas a memo over the same
closure does follow the dependency. -/
theorem C10_computed_is_frozen_at_construction (σ τ : Type) (d0 : σ) (f : σ → τ)
    (gs : List (σ → σ)) :
    (createComputed d0 f).get = f d0 ∧
    (runComputedUpdates (createComputed d0 f) gs).get = f d0 ∧
    (runMemoUpdates (createMemo d0 f) gs).get =
      f (gs.foldl (fun v g => g v) d0) := by
  have h := runMemoUpdates_invariant gs (createMemo d0 f) rfl
  rw [runMemoUpdates_derive gs, runMemoUpdates_dep gs] at h
  exact ⟨rfl, runComputedUpdates_value gs _, h⟩

/-- C4: `Geometry::contains` is exactly the closed-rectangle test, both
edges inclusive; on `Geometry{0,0,10,10}` it accepts (0,0), (10,10), (5,5)
and rejects (10.0001, 5) and (-0.0001, 5). -/
theorem C4_contains_both_edges_inclusive (g : Geometry) (px py : ℚ) :
    (g.contains px py = true ↔
      (g.x ≤ px ∧ px ≤ g.x + g.width ∧ g.y ≤ py ∧ py ≤ g.y + g.height)) ∧
    (gA.contains 0 0 = true ∧ gA.contains 10 10 = true ∧ gA.contains 5 5 = true ∧
      gA.contains (100001 / 10000) 5 = false ∧ gA.contains (-1 / 10000) 5 = false) := by
  refine ⟨by simp [Geometry.contains, and_assoc], ?_, ?_, ?_, ?_, ?_⟩ <;>
    norm_num [gA, Geometry.contains]

/-- C5: `Button::handle_event` implements exactly the claimed transition
function: `MouseMove` recomputes `hovered`; `MouseDown` sets `pressed`
only when the point is contained and otherwise leaves it unchanged;
`MouseUp` clears `pressed` unconditionally; `MouseClick` invokes the
callback exactly once iff the point is contained, independent of the
current `pressed`/`hovered` values, and touches nothing else. -/
theorem C5_button_transition_function (b : ButtonState) (geo : Geometry) (x y : ℚ) :
    buttonHandleEvent b geo (.mouseMove x y) =
      { b with hovered := geo.contains x y } ∧
    buttonHandleEvent b geo (.mouseDown x y) =
      { b with pressed := if geo.contains x y then true else b.pressed } ∧
    buttonHandleEvent b geo (.mouseUp x y) = { b with pressed := false } ∧
    buttonHandleEvent b geo (.mouseClick x y) =
      { b with clicks := b.clicks + if geo.contains x y then 1 else 0 } := by
  refine ⟨rfl, ?_, rfl, ?_⟩ <;>
    cases hc : geo.contains x y <;> simp [buttonHandleEvent, hc]

/-- C7: `Text::prepare` re-shapes only when the current text differs from
the content of the last shape: a second `prepare` with unchanged text
performs no shape operation (so two calls shape at most once in total),
and changing the string between calls causes exactly one reshape on the
next `prepare`. -/
theorem C7_text_content_equality_cache (t : TextModel) (s : String) :
    t.prepare.1.prepare.2 = 0 ∧
    t.prepare.2 + t.prepare.1.prepare.2 ≤ 1 ∧
    (s ≠ t.text → (t.prepare.1.setText s).prepare.2 = 1) := by
  refine ⟨?_, ?_, ?_⟩
  · rw [TextModel.prepare_snd, TextModel.prepare_fst]
    simp
  · rw [TextModel.prepare_snd, TextModel.prepare_snd, TextModel.prepare_fst]
    split <;> simp
  · intro hs
    rw [TextModel.prepare_fst, TextModel.setText, TextModel.prepare_snd]
    simp [Ne.symm hs]

/-- Witness for C7: a fresh `Text("a")` is prepared (one shape), its text
is changed to "b", and the next `prepare` performs exactly one reshape. -/
theorem C7_text_content_equality_cache_witness :
    ((TextModel.new "a").prepare.1.setText "b").prepare.2 = 1 :=
  (C7_text_content_equality_cache (TextModel.new "a") "b").2.2 (by decide)

/-- C8: a left-button press dispatches `MouseDown` and, in the same input
dispatch, a synthesized `MouseClick` at the same cursor coordinates; in
the scenario press-inside then release-outside, the button ends with
`pressed = false` and its callback invoked exactly once. -/
theorem C8_click_synthesized_at_press (cursor : ℚ × ℚ) (geo : Geometry)
    (b : ButtonState) (pIn pOut : ℚ × ℚ)
    (hIn : geo.contains pIn.1 pIn.2 = true)
    (hOut : geo.contains pOut.1 pOut.2 = false) :
    (dispatchEvents cursor (.mouseInput true)).2 =
      [Event.mouseDown cursor.1 cursor.2, Event.mouseClick cursor.1 cursor.2] ∧
    (appRun geo ((0, 0), b)
        [.cursorMoved pIn.1 pIn.2, .mouseInput true,
         .cursorMoved pOut.1 pOut.2, .mouseInput false]).2.pressed = false ∧
    (appRun geo ((0, 0), b)
        [.cursorMoved pIn.1 pIn.2, .mouseInput true,
         .cursorMoved pOut.1 pOut.2, .mouseInput false]).2.clicks = b.clicks + 1 := by
  refine ⟨rfl, ?_, ?_⟩ <;>
    simp [appRun, appStep, dispatchEvents, buttonHandleEvent, hIn, hOut]

/-- Witness for C8: a button over the rectangle {0,0,10,10}, pressed at
(5,5) and released at (20,5), ends unpressed with exactly one click. -/
theorem C8_click_synthesized_at_press_witness :
    (appRun gA ((0, 0), ⟨false, false, 0⟩)
        [.cursorMoved 5 5, .mouseInput true,
         .cursorMoved 20 5, .mouseInput false]).2.pressed = false ∧
    (appRun gA ((0, 0), ⟨false, false, 0⟩)
        [.cursorMoved 5 5, .mouseInput true,
         .cursorMoved 20 5, .mouseInput false]).2.clicks = 1 := by
  have h := C8_click_synthesized_at_press (0, 0) gA ⟨false, false, 0⟩ (5, 5) (20, 5)
    gA_contains_5_5 gA_not_contains_20_5
  exact ⟨h.2.1, h.2.2⟩

/-- C1 counterexample: after 4097 `push_rect` calls starting from an empty
queue, the vertex list holds 4 · 4097 = 16388 entries — beyond both the
1024-entry allocation hint and the 16384-vertex GPU buffer size.  No push
ever drops a primitive: the lists do exceed every declared capacity. -/
theorem C1_counterexample_lists_exceed_capacity :
    vertexCapacityHint <
      (applyPushes (List.replicate 4097 (PushOp.rect gA cW))
        RenderQueue.new).vertices.length ∧
    vertexBufferCapacity <
      (applyPushes (List.replicate 4097 (PushOp.rect gA cW))
        RenderQueue.new).vertices.length := by
  have h := applyPushes_vertices_length
    (List.replicate 4097 (PushOp.rect gA cW)) RenderQueue.new
  rw [List.length_replicate] at h
  have h0 : RenderQueue.new.vertices.length = 0 := rfl
  have hc1 : vertexCapacityHint = 1024 := rfl
  have hc2 : vertexBufferCapacity = 16384 := rfl
  omega

/-- C1 (amended): every push appends exactly 4 vertices and 6 indices
without failing, so the in-memory lists grow past any fixed capacity; the
silent truncation happens at frame submission, which uploads and draws
exactly the first 16384 vertices and 24576 indices and drops the excess —
the truncation boundary sits exactly at the GPU buffer capacity. -/
theorem C1_pushes_never_drop_truncation_at_submission (ops : List PushOp) :
    (applyPushes ops RenderQueue.new).vertices.length = 4 * ops.length ∧
    (applyPushes ops RenderQueue.new).indices.length = 6 * ops.length ∧
    (submittedVertices (applyPushes ops RenderQueue.new)).length =
      min vertexBufferCapacity (4 * ops.length) ∧
    (submittedIndices (applyPushes ops RenderQueue.new)).length =
      min indexBufferCapacity (6 * ops.length) := by
  have hv := applyPushes_vertices_length ops RenderQueue.new
  have hi := applyPushes_indices_length ops RenderQueue.new
  have h0 : RenderQueue.new.vertices.length = 0 := rfl
  have h1 : RenderQueue.new.indices.length = 0 := rfl
  rw [h0, Nat.zero_add] at hv
  rw [h1, Nat.zero_add] at hi
  refine ⟨hv, hi, ?_, ?_⟩
  · rw [submittedVertices, List.length_take, hv]
  · rw [submittedIndices, List.length_take, hi]

/-- C6 counterexample: the `u16` start index wraps at 65536 vertices.
After 16384 rectangle pushes the queue holds 65536 vertices, so the next
push (primitive number 16384, counting from 0) emits the indices
[0, 1, 2, 2, 1, 3] — they reference the first quad's vertices, not the
range [4·16384, 4·16384 + 4) the claim requires. -/
theorem C6_counterexample_u16_index_wraparound :
    ¬ ∀ k ∈ ((applyPushes (List.replicate 16384 (PushOp.rect gA cW))
          RenderQueue.new).push_rect gA cW).indices.drop (6 * 16384),
        4 * 16384 ≤ k := by
  intro hall
  have hv : (applyPushes (List.replicate 16384 (PushOp.rect gA cW))
      RenderQueue.new).vertices.length = 65536 := by
    have h := applyPushes_vertices_length
      (List.replicate 16384 (PushOp.rect gA cW)) RenderQueue.new
    rw [List.length_replicate] at h
    have h0 : RenderQueue.new.vertices.length = 0 := rfl
    omega
  have hi : (applyPushes (List.replicate 16384 (PushOp.rect gA cW))
      RenderQueue.new).indices.length = 6 * 16384 := by
    have h := applyPushes_indices_length
      (List.replicate 16384 (PushOp.rect gA cW)) RenderQueue.new
    rw [List.length_replicate] at h
    have h1 : RenderQueue.new.indices.length = 0 := rfl
    omega
  have hdrop : ((applyPushes (List.replicate 16384 (PushOp.rect gA cW))
      RenderQueue.new).push_rect gA cW).indices.drop (6 * 16384) =
      [0, 1, 2, 2, 1, 3] := by
    rw [push_rect_eq, push_raw_indices, hv, ← hi, List.drop_left]
  have h0 := hall 0 (by rw [hdrop]; simp)
  omega

/-- C6 (amended): provided the queue holds at most 65532 vertices — in
particular for the first 16384 primitives, before the `u16` start index
can wrap — each push (`push_rect`, `push_rounded_rect`, `push_circle`,
all delegating to `push_raw`) appends exactly 4 vertices sharing color,
shape selector, rect origin, rect size and corner radius and differing
only in corner position, plus 6 indices forming two triangles that
reference only that quad's 4 contiguous vertices; from an empty queue,
three rectangles yield 12 vertices and 18 indices with primitive i
referencing only [4i, 4i+4). -/
theorem C6_push_emits_contiguous_quad (q : RenderQueue) (g : Geometry)
    (c : Color) (r s : ℚ) (h : q.vertices.length + 3 < 65536) :
    q.push_rect g c = q.push_raw g c 0 0 ∧
    q.push_rounded_rect g c r = q.push_raw g c r 1 ∧
    q.push_circle g c = q.push_raw g c 0 2 ∧
    (q.push_raw g c r s).vertices = q.vertices ++
      [⟨(g.x, g.y), c, (g.x, g.y), (g.width, g.height), r, s⟩,
       ⟨(g.x + g.width, g.y), c, (g.x, g.y), (g.width, g.height), r, s⟩,
       ⟨(g.x, g.y + g.height), c, (g.x, g.y), (g.width, g.height), r, s⟩,
       ⟨(g.x + g.width, g.y + g.height), c, (g.x, g.y), (g.width, g.height), r, s⟩] ∧
    (q.push_raw g c r s).indices = q.indices ++
      [q.vertices.length, q.vertices.length + 1, q.vertices.length + 2,
       q.vertices.length + 2, q.vertices.length + 1, q.vertices.length + 3] ∧
    (∀ k ∈ (q.push_raw g c r s).indices.drop q.indices.length,
        q.vertices.length ≤ k ∧ k < q.vertices.length + 4) ∧
    (threeRects.vertices.length = 12 ∧ threeRects.indices.length = 18 ∧
      ∀ i < 3, ∀ k ∈ (threeRects.indices.drop (6 * i)).take 6,
        4 * i ≤ k ∧ k < 4 * i + 4) := by
  have h0 : q.vertices.length % 65536 = q.vertices.length :=
    Nat.mod_eq_of_lt (by omega)
  have h1 : (q.vertices.length + 1) % 65536 = q.vertices.length + 1 :=
    Nat.mod_eq_of_lt (by omega)
  have h2 : (q.vertices.length + 2) % 65536 = q.vertices.length + 2 :=
    Nat.mod_eq_of_lt (by omega)
  have h3 : (q.vertices.length + 3) % 65536 = q.vertices.length + 3 :=
    Nat.mod_eq_of_lt (by omega)
  have hidx : (q.push_raw g c r s).indices = q.indices ++
      [q.vertices.length, q.vertices.length + 1, q.vertices.length + 2,
       q.vertices.length + 2, q.vertices.length + 1, q.vertices.length + 3] := by
    rw [push_raw_indices, h0, h1, h2, h3]
  refine ⟨rfl, rfl, rfl, push_raw_vertices q g c r s, hidx, ?_, ?_⟩
  · intro k hk
    rw [hidx, List.drop_left] at hk
    simp only [List.mem_cons, List.not_mem_nil, or_false] at hk
    rcases hk with rfl | rfl | rfl | rfl | rfl | rfl <;> omega
  · exact ⟨by decide, by decide, by decide⟩

/-- Witness for C6 at the empty queue: the first pushed quad's indices are
[0, 1, 2, 2, 1, 3]. -/
theorem C6_push_emits_contiguous_quad_witness :
    (RenderQueue.new.push_raw gA cW 0 0).indices = [0, 1, 2, 2, 1, 3] := by
  have h := (C6_push_emits_contiguous_quad RenderQueue.new gA cW 0 0
    (by decide)).2.2.2.2.1
  simpa [RenderQueue.new] using h

/-- C9 counterexample: operations that never read the layout handle do not
panic on an unlaid node: `Rect::handle_event` and the default
`collect_text_areas` of `Circle` have empty bodies, and `render` (here on
a `Column` with an unlaid `Rect` child) never touches `node_id`.  The
claim that all four operations fail fast before layout is false. -/
theorem C9_counterexample_no_panic_before_layout :
    Widget.handleEvent ctx0 gA (.rect none) = some () ∧
    Widget.render (.column none (.cons (.rect none) .nil)) = some () ∧
    Widget.collectText ctx0 gA (.circle none) = some () :=
  ⟨rfl, rfl, rfl⟩

/-- C9 (amended): the operations that resolve geometry — `prepare` on
every widget, `collect_text` on Column/Text/Button, `handle_event` on
Column/Button — fail fast (unwrap panic, modelled as `none`) when invoked
before layout has assigned the handle; `render` and the no-op
implementations never read the handle; and once layout has set every
handle in the tree, none of the four operations panics for this reason. -/
theorem C9_handle_assertion_discipline (ctx : LayoutCtx) (parent : Geometry)
    (cs : WidgetList) (tn : Option Nat) (w : Widget) (hw : w.allSet = true) :
    Widget.prepare ctx parent (.column none cs) = none ∧
    Widget.prepare ctx parent (.text none) = none ∧
    Widget.prepare ctx parent (.button none tn) = none ∧
    Widget.prepare ctx parent (.rect none) = none ∧
    Widget.prepare ctx parent (.circle none) = none ∧
    Widget.prepare ctx parent (.rrect none) = none ∧
    Widget.collectText ctx parent (.column none cs) = none ∧
    Widget.collectText ctx parent (.text none) = none ∧
    Widget.collectText ctx parent (.button none tn) = none ∧
    Widget.handleEvent ctx parent (.column none cs) = none ∧
    Widget.handleEvent ctx parent (.button none tn) = none ∧
    Widget.prepare ctx parent w = some () ∧
    Widget.collectText ctx parent w = some () ∧
    Widget.handleEvent ctx parent w = some () ∧
    Widget.render w = some () :=
  ⟨rfl, rfl, rfl, rfl, rfl, rfl, rfl, rfl, rfl, rfl, rfl,
    Widget.prepare_some ctx w parent hw,
    Widget.collectText_some ctx w parent hw,
    Widget.handleEvent_some ctx w parent hw,
    Widget.render_some w⟩

/-- Witness for C9: a fully laid-out column holding one rect (all handles
set) completes `prepare` without panicking. -/
theorem C9_handle_assertion_discipline_witness :
    Widget.prepare ctx0 gA (.column (some 0) (.cons (.rect (some 1)) .nil)) =
      some () :=
  (C9_handle_assertion_discipline ctx0 gA .nil none
    (.column (some 0) (.cons (.rect (some 1)) .nil)) rfl).2.2.2.2.2.2.2.2.2.2.2.1

end NoxKit
